import Mathlib

/-!
Verification of the CricBazaar squad optimizer & recommendation engine
(`players.py`, `optimizer.py`).

Python floats are embedded as rationals (all constants in the source are
exact decimal fractions), Python ints as `ℤ`/`ℕ`, player dicts as a
`Player` structure whose derived fields (`role`, `overall`, `tier`) are
the enrichment functions of `players.py`.
-/

namespace CricBazaar

/-! ## Rounding helpers (Python `round` / `int`) -/

/-- Python 3 `round(q)`: round half to even (banker's rounding). A number is a
half-integer tie exactly when `2q = 2⌊q⌋ + 1`; off ties, rounding to nearest is
`⌊q + 1/2⌋`. -/
def roundHalfEven (q : ℚ) : ℤ :=
  if 2 * q = ((2 * ⌊q⌋ + 1 : ℤ) : ℚ) then
    (if ⌊q⌋ % 2 = 0 then ⌊q⌋ else ⌊q⌋ + 1)
  else ⌊q + 1/2⌋

/-- Python `round(q, 1)`: round to one decimal place, half to even. -/
def round1 (q : ℚ) : ℚ := (roundHalfEven (10 * q) : ℚ) / 10

/-- Python `int(q)`: truncation toward zero. -/
def pyInt (q : ℚ) : ℤ := if 0 ≤ q then ⌊q⌋ else ⌈q⌉

/-! ## Data model (`players.py`) -/

inductive Role where
  | Batsman
  | Bowler
  | AllRounder
deriving DecidableEq

inductive Tag where
  | Captain
  | ViceCaptain
deriving DecidableEq

/-- A player record: identity, name, the three capability ratings, and the
optional pre-assignment metadata (`tag`, `forced_role`) of captains and
vice-captains. -/
structure Player where
  id : ℕ
  name : String
  batting : ℕ
  bowling : ℕ
  fielding : ℕ
  tag : Option Tag := none
  forced_role : Option Role := none
deriving DecidableEq

/-- `players.py`: `BASE_PRICE = 5`. -/
def BASE_PRICE : ℤ := 5

/-- `players.py`: `BUDGET_PER_TEAM = 100`. -/
def BUDGET_PER_TEAM : ℤ := 100

/-- `players.py`: `BID_INCREMENT = 1`. -/
def BID_INCREMENT : ℤ := 1

/-- `players.py` `classify_role`: forced role if present, else by the
batting/bowling thresholds. -/
def classify_role (p : Player) : Role :=
  match p.forced_role with
  | some r => r
  | none =>
    if 4 ≤ p.batting ∧ 4 ≤ p.bowling then Role.AllRounder
    else if 4 ≤ p.bowling then Role.Bowler
    else Role.Batsman

/-- `players.py` `compute_overall`:
`round(batting * 0.40 + bowling * 0.40 + fielding * 0.20, 1)`. -/
def compute_overall (p : Player) : ℚ :=
  round1 ((p.batting : ℚ) * 0.40 + (p.bowling : ℚ) * 0.40 + (p.fielding : ℚ) * 0.20)

/-- `players.py` `classify_tier`: captains/vice-captains are tier 1, else
thresholds 7.5 / 5.5 / 3.5 on the overall rating. -/
def classify_tier (p : Player) : ℕ :=
  match p.tag with
  | some _ => 1
  | none =>
    let o := compute_overall p
    if 7.5 ≤ o then 1
    else if 5.5 ≤ o then 2
    else if 3.5 ≤ o then 3
    else 4

/-! ## Squad needs analysis (`optimizer.py`) -/

/-- `optimizer.py` `_can_bowl`: bowling rating ≥ 4. -/
def canBowl (p : Player) : Bool := 4 ≤ p.bowling

/-- Number of players in a list who can bowl. -/
def bowlCount (l : List Player) : ℕ := l.countP canBowl

/-- Number of players in a list with a given role. -/
def roleCount (l : List Player) (r : Role) : ℕ :=
  l.countP (fun p => classify_role p = r)

/-- `analyze_squad_needs`: `max(0, 6 - bowlers_who_can_bowl)` (as ℕ-subtraction). -/
def bowlers_needed (squad : List Player) : ℕ := 6 - bowlCount squad

/-- Membership of a role in `analyze_squad_needs`'s `role_needs` set:
Batsman if fewer than 3, Bowler if fewer than 2, All-rounder if fewer than 2.
(The set's `"need_bowlers"` tag can never equal a role name, so membership of
a player's role reduces to these three cases.) -/
def roleNeeds (squad : List Player) (r : Role) : Bool :=
  match r with
  | Role.Batsman => decide (roleCount squad Role.Batsman < 3)
  | Role.Bowler => decide (roleCount squad Role.Bowler < 2)
  | Role.AllRounder => decide (roleCount squad Role.AllRounder < 2)

/-! ## Constrained squad optimizer (`solve_optimal_squad`) -/

/-- Sum of overall ratings of a selection. -/
def totalOverall (sel : List Player) : ℚ := (sel.map compute_overall).sum

/-- The MILP feasible set of `solve_optimal_squad`, on a 0/1 selection
(identified with a sublist of the pool): exactly `slots` picked, each pick
conservatively costed at `BASE_PRICE` within budget, and at least
`max(0, 6 - current can-bowl count)` selected players can bowl (when that
count is 0 the code omits the constraint, which is equivalent). -/
def feasibleSel (squad : List Player) (budget slots : ℤ) (sel : List Player) : Prop :=
  (sel.length : ℤ) = slots ∧
  BASE_PRICE * (sel.length : ℤ) ≤ budget ∧
  bowlers_needed squad ≤ bowlCount sel

instance (squad : List Player) (budget slots : ℤ) (sel : List Player) :
    Decidable (feasibleSel squad budget slots sel) := by
  unfold feasibleSel; infer_instance

/-- Pick a selection of maximal total overall from a list of candidates
(`none` on the empty list). Modelled from the spec: the MILP backend
(`scipy.optimize.linprog`, HiGHS) is external to this repository; per spec
§4.2 it returns an optimal feasible assignment when one exists, with
solver-dependent tie-breaking (spec §9) realised here as a deterministic scan. -/
def betterSel (s : List Player) : Option (List Player) → Option (List Player)
  | none => some s
  | some b => if totalOverall b < totalOverall s then some s else some b

def bestSelection : List (List Player) → Option (List Player)
  | [] => none
  | s :: rest => betterSel s (bestSelection rest)

/-- The solver call of `solve_optimal_squad`: optimal feasible selection from
the pool's index-subsets (sublists), `none` when infeasible (`result.success`
false). -/
def milp_result (pool squad : List Player) (budget slots : ℤ) : Option (List Player) :=
  bestSelection (pool.sublists.filter (fun sel => decide (feasibleSel squad budget slots sel)))

/-- The `try` block around `linprog`: the solver either raises (`Except.error`)
or returns a result whose `success` flag is modelled by the `Option`. -/
def run_milp (pool squad : List Player) (budget slots : ℤ) :
    Except String (Option (List Player)) :=
  Except.ok (milp_result pool squad budget slots)

/-- The `try`/`except` + `result.success` handling of `solve_optimal_squad`:
an exception or an unsuccessful solve both yield the empty list. -/
def handle_milp : Except String (Option (List Player)) → List Player
  | Except.error _ => []
  | Except.ok none => []
  | Except.ok (some sel) => sel

/-- `optimizer.py` `solve_optimal_squad`: guard on empty pool / no slots,
then solve the MILP and post-process. -/
def solve_optimal_squad (pool squad : List Player) (budget slots : ℤ) : List Player :=
  if pool.length = 0 ∨ slots ≤ 0 then []
  else handle_milp (run_milp pool squad budget slots)

/-! ## Basic lemmas -/

theorem floor_le_roundHalfEven (q : ℚ) : ⌊q⌋ ≤ roundHalfEven q := by
  unfold roundHalfEven
  have h1 : ⌊q⌋ ≤ ⌊q + 1/2⌋ := Int.floor_le_floor (by linarith)
  split_ifs <;> omega

theorem roundHalfEven_intCast (n : ℤ) : roundHalfEven (n : ℚ) = n := by
  unfold roundHalfEven
  rw [Int.floor_intCast]
  have h2 : ¬ (2 * (n : ℚ) = ((2 * n + 1 : ℤ) : ℚ)) := by
    push_cast
    intro h
    have : (2 : ℚ) * n - 2 * n = 1 := by linarith
    norm_num at this
  rw [if_neg h2]
  rw [Int.floor_int_add]
  norm_num

theorem round1_of_int (q : ℚ) (n : ℤ) (h : 10 * q = (n : ℚ)) : round1 q = q := by
  unfold round1
  rw [h, roundHalfEven_intCast, ← h]
  ring

theorem round1_nonneg {q : ℚ} (h : 0 ≤ q) : 0 ≤ round1 q := by
  unfold round1
  have h1 : (0 : ℤ) ≤ ⌊10 * q⌋ := Int.floor_nonneg.mpr (by linarith)
  have h2 := floor_le_roundHalfEven (10 * q)
  have h3 : (0 : ℤ) ≤ roundHalfEven (10 * q) := le_trans h1 h2
  have h4 : (0 : ℚ) ≤ (roundHalfEven (10 * q) : ℚ) := by exact_mod_cast h3
  linarith

theorem round1_pos {q : ℚ} (h : 1/4 ≤ q) : 0 < round1 q := by
  unfold round1
  have h1 : (1 : ℤ) ≤ ⌊10 * q⌋ := Int.le_floor.mpr (by push_cast; linarith)
  have h2 := floor_le_roundHalfEven (10 * q)
  have h3 : (1 : ℤ) ≤ roundHalfEven (10 * q) := le_trans h1 h2
  have h4 : (1 : ℚ) ≤ (roundHalfEven (10 * q) : ℚ) := by exact_mod_cast h3
  linarith

theorem compute_overall_eq (p : Player) :
    compute_overall p =
      (p.batting : ℚ) * 0.40 + (p.bowling : ℚ) * 0.40 + (p.fielding : ℚ) * 0.20 := by
  unfold compute_overall
  apply round1_of_int _ ((4 * p.batting + 4 * p.bowling + 2 * p.fielding : ℕ) : ℤ)
  push_cast
  ring

theorem compute_overall_nonneg (p : Player) : 0 ≤ compute_overall p := by
  rw [compute_overall_eq]
  positivity

theorem totalOverall_nonneg (sel : List Player) : 0 ≤ totalOverall sel := by
  unfold totalOverall
  apply List.sum_nonneg
  intro x hx
  obtain ⟨p, _, rfl⟩ := List.mem_map.mp hx
  exact compute_overall_nonneg p

/-! ## Lemmas about the optimal-selection scan -/

theorem betterSel_ne_none (s : List Player) (o : Option (List Player)) :
    betterSel s o ≠ none := by
  cases o with
  | none => simp [betterSel]
  | some b =>
    simp only [betterSel]
    split <;> simp

theorem bestSelection_eq_none {cands : List (List Player)} :
    bestSelection cands = none ↔ cands = [] := by
  cases cands with
  | nil => simp [bestSelection]
  | cons c rest =>
    simp only [bestSelection]
    constructor
    · intro h; exact absurd h (betterSel_ne_none c (bestSelection rest))
    · intro h; exact absurd h (List.cons_ne_nil c rest)

theorem betterSel_eq_some (s : List Player) (o : Option (List Player)) {t : List Player}
    (h : betterSel s o = some t) : t = s ∨ o = some t := by
  cases o with
  | none => simp [betterSel] at h; exact Or.inl h.symm
  | some b =>
    simp only [betterSel] at h
    split at h
    · simp at h; exact Or.inl h.symm
    · simp at h; exact Or.inr (by rw [h])

theorem betterSel_le_left (s : List Player) (o : Option (List Player)) {t : List Player}
    (h : betterSel s o = some t) : totalOverall s ≤ totalOverall t := by
  cases o with
  | none => simp [betterSel] at h; rw [h]
  | some b =>
    simp only [betterSel] at h
    split at h
    · simp at h; rw [h]
    · rename_i hnlt
      simp at h
      rw [← h]
      exact le_of_not_lt hnlt

theorem betterSel_le_right (s : List Player) {b t : List Player}
    (h : betterSel s (some b) = some t) : totalOverall b ≤ totalOverall t := by
  simp only [betterSel] at h
  split at h
  · rename_i hlt
    simp at h
    rw [← h]
    exact le_of_lt hlt
  · simp at h
    rw [h]

theorem bestSelection_mem {cands : List (List Player)} {s : List Player}
    (h : bestSelection cands = some s) : s ∈ cands := by
  induction cands generalizing s with
  | nil => simp [bestSelection] at h
  | cons c rest ih =>
    simp only [bestSelection] at h
    rcases betterSel_eq_some c (bestSelection rest) h with hsc | hr
    · rw [hsc]; exact List.mem_cons_self c rest
    · exact List.mem_cons_of_mem c (ih hr)

theorem bestSelection_le {cands : List (List Player)} {s : List Player}
    (h : bestSelection cands = some s) :
    ∀ t ∈ cands, totalOverall t ≤ totalOverall s := by
  induction cands generalizing s with
  | nil => intro t ht; simp at ht
  | cons c rest ih =>
    intro t ht
    simp only [bestSelection] at h
    rcases List.mem_cons.mp ht with htc | hmem
    · rw [htc]; exact betterSel_le_left c (bestSelection rest) h
    · cases hr : bestSelection rest with
      | none =>
        rw [bestSelection_eq_none.mp hr] at hmem
        simp at hmem
      | some b =>
        rw [hr] at h
        exact le_trans (ih hr t hmem) (betterSel_le_right c h)

/-! ## Structure of `solve_optimal_squad` results -/

theorem milp_result_feasible {pool squad : List Player} {budget slots : ℤ} {s : List Player}
    (hm : milp_result pool squad budget slots = some s) :
    s.Sublist pool ∧ feasibleSel squad budget slots s := by
  have h1 := bestSelection_mem hm
  rw [List.mem_filter] at h1
  exact ⟨List.mem_sublists.mp h1.1, of_decide_eq_true h1.2⟩

theorem solve_optimal_squad_eq (pool squad : List Player) (budget slots : ℤ) :
    solve_optimal_squad pool squad budget slots = [] ∨
    ∃ s, milp_result pool squad budget slots = some s ∧
      solve_optimal_squad pool squad budget slots = s ∧
      ¬ (pool.length = 0 ∨ slots ≤ 0) := by
  by_cases hg : pool.length = 0 ∨ slots ≤ 0
  · left; unfold solve_optimal_squad; rw [if_pos hg]
  · cases hm : milp_result pool squad budget slots with
    | none =>
      left
      unfold solve_optimal_squad
      rw [if_neg hg]
      show handle_milp (Except.ok (milp_result pool squad budget slots)) = []
      rw [hm]
      rfl
    | some s =>
      right
      have hsol : solve_optimal_squad pool squad budget slots = s := by
        unfold solve_optimal_squad
        rw [if_neg hg]
        show handle_milp (Except.ok (milp_result pool squad budget slots)) = s
        rw [hm]
        rfl
      exact ⟨s, rfl, hsol, hg⟩

/-! ## Concrete inputs used by witnesses and counterexamples -/

/-- A roster of five bowling-capable fillers (bowling 5 ≥ 4). -/
def fiveBowlers : List Player :=
  [{ id := 90, name := "F1", batting := 1, bowling := 5, fielding := 1 },
   { id := 91, name := "F2", batting := 1, bowling := 5, fielding := 1 },
   { id := 92, name := "F3", batting := 1, bowling := 5, fielding := 1 },
   { id := 93, name := "F4", batting := 1, bowling := 5, fielding := 1 },
   { id := 94, name := "F5", batting := 1, bowling := 5, fielding := 1 }]

/-- Pool player `Harish` (id 22) of the real catalog: batting 5, bowling 10,
fielding 5. -/
def harish : Player := { id := 22, name := "Harish", batting := 5, bowling := 10, fielding := 5 }

/-- Pool player `Kohli` (id 3) of the real catalog: batting 9, bowling 0,
fielding 10. -/
def kohli : Player := { id := 3, name := "Kohli", batting := 9, bowling := 0, fielding := 10 }

/-! ## Claim theorems: the constrained squad optimizer -/

/-- C9: every list returned by `solve_optimal_squad` is a sublist of the given
unsold pool — each selected player is an element of the pool, no pool position
is selected more than once, and the result is a duplicate-free sub-collection
of the input pool. -/
theorem solve_optimal_squad_subpool (pool squad : List Player) (budget slots : ℤ) :
    (solve_optimal_squad pool squad budget slots).Sublist pool ∧
    ∀ p ∈ solve_optimal_squad pool squad budget slots, p ∈ pool := by
  have hs : (solve_optimal_squad pool squad budget slots).Sublist pool := by
    rcases solve_optimal_squad_eq pool squad budget slots with h | ⟨s, hm, hsol, _⟩
    · rw [h]; exact List.nil_sublist pool
    · rw [hsol]; exact (milp_result_feasible hm).1
  exact ⟨hs, fun p hp => hs.subset hp⟩

/-- C3: when `solve_optimal_squad` returns a non-empty list, the result is a
feasible selection — exactly `slots` players, total cost at base price per
player within budget, and when the roster's can-bowl count is below 6 at least
`6 − count` of the selected players can bowl; when no sublist of the pool is
feasible it returns the empty list. -/
theorem solve_optimal_squad_feasibility (pool squad : List Player) (budget slots : ℤ) :
    (solve_optimal_squad pool squad budget slots ≠ [] →
      ((solve_optimal_squad pool squad budget slots).length : ℤ) = slots ∧
      BASE_PRICE * ((solve_optimal_squad pool squad budget slots).length : ℤ) ≤ budget ∧
      (bowlCount squad < 6 →
        6 - bowlCount squad ≤ bowlCount (solve_optimal_squad pool squad budget slots))) ∧
    ((∀ sel ∈ pool.sublists, ¬ feasibleSel squad budget slots sel) →
      solve_optimal_squad pool squad budget slots = []) := by
  constructor
  · intro hne
    rcases solve_optimal_squad_eq pool squad budget slots with h | ⟨s, hm, hsol, _⟩
    · exact absurd h hne
    · obtain ⟨hlen, hcost, hbowl⟩ := (milp_result_feasible hm).2
      rw [hsol]
      exact ⟨hlen, hcost, fun _ => hbowl⟩
  · intro hall
    have hnil : pool.sublists.filter (fun sel => decide (feasibleSel squad budget slots sel)) = [] := by
      apply List.filter_eq_nil_iff.mpr
      intro a ha
      simpa using hall a ha
    rcases solve_optimal_squad_eq pool squad budget slots with h | ⟨s, hm, _, _⟩
    · exact h
    · exfalso
      unfold milp_result at hm
      rw [hnil] at hm
      simp [bestSelection] at hm

/-- C3 witness: roster with five can-bowl players, one slot, pool holding the
can-bowl player `harish`, ample budget: the solver fills the slot. -/
theorem solve_optimal_squad_feasibility_witness :
    (solve_optimal_squad [harish] fiveBowlers 100 1 ≠ [] ∧
      ((solve_optimal_squad [harish] fiveBowlers 100 1).length : ℤ) = 1 ∧
      BASE_PRICE * ((solve_optimal_squad [harish] fiveBowlers 100 1).length : ℤ) ≤ 100 ∧
      (bowlCount fiveBowlers < 6 →
        6 - bowlCount fiveBowlers ≤ bowlCount (solve_optimal_squad [harish] fiveBowlers 100 1))) ∧
    ((∀ sel ∈ ([harish] : List Player).sublists, ¬ feasibleSel fiveBowlers 0 1 sel) ∧
      solve_optimal_squad [harish] fiveBowlers 0 1 = []) := by
  have hne : solve_optimal_squad [harish] fiveBowlers 100 1 ≠ [] := by
    norm_num [solve_optimal_squad, run_milp, handle_milp, milp_result, bestSelection, betterSel,
      feasibleSel, bowlers_needed, bowlCount, canBowl, BASE_PRICE, List.sublists, harish,
      fiveBowlers]
  have hinf : ∀ sel ∈ ([harish] : List Player).sublists, ¬ feasibleSel fiveBowlers 0 1 sel := by
    decide
  exact ⟨⟨hne, (solve_optimal_squad_feasibility [harish] fiveBowlers 100 1).1 hne⟩,
    ⟨hinf, (solve_optimal_squad_feasibility [harish] fiveBowlers 0 1).2 hinf⟩⟩

/-- C4: increasing the remaining budget, all other inputs fixed, never
decreases the total overall quality of the set returned by
`solve_optimal_squad`. -/
theorem solve_optimal_squad_budget_mono (pool squad : List Player) (slots b1 b2 : ℤ)
    (h : b1 ≤ b2) :
    totalOverall (solve_optimal_squad pool squad b1 slots) ≤
      totalOverall (solve_optimal_squad pool squad b2 slots) := by
  rcases solve_optimal_squad_eq pool squad b1 slots with h1 | ⟨s1, hm1, hsol1, hg⟩
  · rw [h1]
    calc totalOverall [] = 0 := rfl
      _ ≤ _ := totalOverall_nonneg _
  · rw [hsol1]
    have hfe1 := milp_result_feasible hm1
    have hmemf : s1 ∈ pool.sublists.filter (fun sel => decide (feasibleSel squad b2 slots sel)) := by
      rw [List.mem_filter]
      refine ⟨List.mem_sublists.mpr hfe1.1, decide_eq_true ?_⟩
      obtain ⟨hl, hc, hb⟩ := hfe1.2
      exact ⟨hl, le_trans hc h, hb⟩
    cases hm2 : milp_result pool squad b2 slots with
    | none =>
      exfalso
      unfold milp_result at hm2
      rw [bestSelection_eq_none.mp hm2] at hmemf
      simp at hmemf
    | some s2 =>
      have hle : totalOverall s1 ≤ totalOverall s2 := by
        unfold milp_result at hm2
        exact bestSelection_le hm2 s1 hmemf
      have hsol2 : solve_optimal_squad pool squad b2 slots = s2 := by
        unfold solve_optimal_squad
        rw [if_neg hg]
        show handle_milp (Except.ok (milp_result pool squad b2 slots)) = s2
        rw [hm2]
        rfl
      rw [hsol2]
      exact hle

/-- C4 witness: with budget 4 the solve is infeasible (quality 0); with budget
100 it finds `harish`; monotone as claimed. -/
theorem solve_optimal_squad_budget_mono_witness :
    (4 : ℤ) ≤ 100 ∧
    totalOverall (solve_optimal_squad [harish] fiveBowlers 4 1) ≤
      totalOverall (solve_optimal_squad [harish] fiveBowlers 100 1) :=
  ⟨by norm_num, solve_optimal_squad_budget_mono [harish] fiveBowlers 1 4 100 (by norm_num)⟩

/-- C7: `solve_optimal_squad` returns the empty list straight from the
guard when `slots ≤ 0` or the pool is empty, and a solver exception is caught
by `handle_milp` and converted to the empty list, so no failure reaches the
caller. -/
theorem solve_optimal_squad_guard_and_catch (pool squad : List Player) (budget slots : ℤ) :
    (slots ≤ 0 ∨ pool = [] → solve_optimal_squad pool squad budget slots = []) ∧
    ∀ msg : String, handle_milp (Except.error msg) = [] := by
  constructor
  · intro hcase
    unfold solve_optimal_squad
    have hg : pool.length = 0 ∨ slots ≤ 0 := by
      rcases hcase with h | h
      · exact Or.inr h
      · exact Or.inl (by rw [h]; rfl)
    rw [if_pos hg]
  · intro msg; rfl

/-- C7 witness: zero slots on a non-empty pool yields `[]`, and a caught
solver error yields `[]`. -/
theorem solve_optimal_squad_guard_and_catch_witness :
    solve_optimal_squad [harish] [] 100 0 = [] ∧
    handle_milp (Except.error "solver crash") = [] :=
  ⟨(solve_optimal_squad_guard_and_catch [harish] [] 100 0).1 (Or.inl (by norm_num)),
   (solve_optimal_squad_guard_and_catch [harish] [] 100 0).2 "solver crash"⟩

/-! ## Claim theorem: the overall-quality weighting -/

/-- Pool player `Abhishek R` (id 1) of the real catalog: batting 7, bowling 4,
fielding 7. -/
def abhishekR : Player := { id := 1, name := "Abhishek R", batting := 7, bowling := 4, fielding := 7 }

/-- Modelled from the spec: the 40/35/25 weighting of the system's own
auction-rules description ("Bat 40%, Bowl 35%, Field 25%", the docstring of
`compute_overall`), for comparison with the implemented weighting. -/
def overall_rules_description (p : Player) : ℚ :=
  round1 ((p.batting : ℚ) * 0.40 + (p.bowling : ℚ) * 0.35 + (p.fielding : ℚ) * 0.25)

/-- C8: the derived overall quality equals the 40/40/20 weighted sum of the
three ratings exactly (rounding to one decimal is the identity, because the
weighted sum of integer ratings always has exactly one decimal digit), and it
is not the 40/35/25 weighting of the rules description: they differ on catalog
player `Abhishek R` (7/4/7). -/
theorem compute_overall_weights :
    (∀ p : Player,
      compute_overall p =
        (p.batting : ℚ) * 0.40 + (p.bowling : ℚ) * 0.40 + (p.fielding : ℚ) * 0.20) ∧
    compute_overall abhishekR = 5.8 ∧
    overall_rules_description abhishekR = 6.0 ∧
    compute_overall abhishekR ≠ overall_rules_description abhishekR := by
  refine ⟨compute_overall_eq, ?_, ?_, ?_⟩
  · rw [compute_overall_eq]; norm_num [abhishekR]
  · norm_num [overall_rules_description, abhishekR, round1, roundHalfEven]
  · rw [compute_overall_eq]
    norm_num [overall_rules_description, abhishekR, round1, roundHalfEven]

/-! ## Marginal-value bid recommender (`recommend_max_bid`) -/

inductive Verdict where
  | mustBuy
  | goodBuy
  | needBasedBuy
  | bowlingNeed
  | skipBaseOnly
deriving DecidableEq

structure BidRecommendation where
  recommended_max : ℤ
  hard_max : ℤ
  marginal_value : ℚ
  need_premium : ℚ
  tier_premium : ℚ
  verdict : Verdict
  baseline_ovr : ℚ
  boosted_ovr : ℚ
deriving DecidableEq

/-- `recommend_max_bid`'s hard affordability cap (the same formula is used per
competitor in `estimate_competition`):
`budget - (slots - 1) * BASE_PRICE if slots > 1 else budget`. -/
def hard_cap (budget slots : ℤ) : ℤ :=
  if 1 < slots then budget - (slots - 1) * BASE_PRICE else budget

/-- `others = [p for p in unsold_players if p["id"] != player["id"]]`. -/
def others (player : Player) (pool : List Player) : List Player :=
  pool.filter (fun p => decide (p.id ≠ player.id))

/-- Baseline solve of `recommend_max_bid`: best team without the candidate. -/
def baseline_squad (player : Player) (squad pool : List Player) (budget slots : ℤ) :
    List Player :=
  solve_optimal_squad (others player pool) squad budget slots

/-- `baseline_ovr = sum(p["overall"] for p in baseline_squad) if baseline_squad
else 0`. -/
def baseline_ovr (player : Player) (squad pool : List Player) (budget slots : ℤ) : ℚ :=
  if baseline_squad player squad pool budget slots = [] then 0
  else totalOverall (baseline_squad player squad pool budget slots)

/-- Boosted solve of `recommend_max_bid`: candidate forced into the roster,
one base price less budget, one slot fewer. -/
def boosted_squad (player : Player) (squad pool : List Player) (budget slots : ℤ) :
    List Player :=
  solve_optimal_squad (others player pool) (squad ++ [player]) (budget - BASE_PRICE) (slots - 1)

/-- `boosted_ovr = player["overall"] + sum(p["overall"] for p in boosted_squad)
if boosted_squad else 0`: by Python conditional-expression precedence the whole
sum `player["overall"] + sum(...)` is the if-branch, so an empty `boosted_squad`
yields 0, not the candidate's own overall. -/
def boosted_ovr (player : Player) (squad pool : List Player) (budget slots : ℤ) : ℚ :=
  if boosted_squad player squad pool budget slots = [] then 0
  else compute_overall player + totalOverall (boosted_squad player squad pool budget slots)

/-- `marginal_value = max(0, boosted_ovr - baseline_ovr)`. -/
def marginal_value (player : Player) (squad pool : List Player) (budget slots : ℤ) : ℚ :=
  max 0 (boosted_ovr player squad pool budget slots - baseline_ovr player squad pool budget slots)

/-- The need-based premium of `recommend_max_bid`: bowling-scarcity premium
plus role-scarcity premium. -/
def need_premium (player : Player) (squad pool : List Player) (slots : ℤ) : ℚ :=
  (if 0 < bowlers_needed squad ∧ canBowl player then
    ((max 0 ((bowlers_needed squad : ℤ) - (bowlCount pool : ℤ) + 1) : ℤ) : ℚ) * 3 +
      (player.bowling : ℚ) * 0.5
   else 0) +
  (if roleNeeds squad (classify_role player) then
    (if (pool.countP (fun p => decide (classify_role p = classify_role player)) : ℤ) ≤ slots
     then (5 : ℚ) else 2)
   else 0)

/-- `tier_premium = {1: 8, 2: 4, 3: 1, 4: 0}.get(player["tier"], 0)`. -/
def tier_premium (player : Player) : ℚ :=
  match classify_tier player with
  | 1 => 8
  | 2 => 4
  | 3 => 1
  | _ => 0

/-- `optimizer.py` `recommend_max_bid`: raw bid from base price, scaled
marginal value and premiums, diminishing returns above 30, rounded and clamped
between the hard cap and the base price. -/
def recommend_max_bid (player : Player) (squad pool : List Player) (budget slots : ℤ) :
    BidRecommendation :=
  let hm := hard_cap budget slots
  let mv := marginal_value player squad pool budget slots
  let np := need_premium player squad pool slots
  let tp := tier_premium player
  let raw := (BASE_PRICE : ℚ) + mv * 1.5 + np + tp
  let raw2 := if 30 < raw then 30 + (raw - 30) * 0.5 else raw
  { recommended_max := max (min (roundHalfEven raw2) hm) BASE_PRICE
    hard_max := hm
    marginal_value := round1 mv
    need_premium := round1 np
    tier_premium := tp
    verdict :=
      if 3 ≤ mv then Verdict.mustBuy
      else if 1 ≤ mv then Verdict.goodBuy
      else if roleNeeds squad (classify_role player) then Verdict.needBasedBuy
      else if canBowl player ∧ 0 < bowlers_needed squad then Verdict.bowlingNeed
      else Verdict.skipBaseOnly
    baseline_ovr := round1 (baseline_ovr player squad pool budget slots)
    boosted_ovr := round1 (boosted_ovr player squad pool budget slots) }

/-! ## Claim theorems: the bid recommender -/

/-- Pool player `Nitin` (id 2) of the real catalog: batting 4, bowling 0,
fielding 4. -/
def nitin : Player := { id := 2, name := "Nitin", batting := 4, bowling := 0, fielding := 4 }

/-- C2 (amended): the recommended bid is always at least the base price, the
hard cap never exceeds the remaining budget, and whenever the hard cap is at
least the base price the recommended bid stays below the hard cap. -/
theorem recommend_max_bid_bounds (player : Player) (squad pool : List Player)
    (budget slots : ℤ) :
    BASE_PRICE ≤ (recommend_max_bid player squad pool budget slots).recommended_max ∧
    (recommend_max_bid player squad pool budget slots).hard_max ≤ budget ∧
    (BASE_PRICE ≤ (recommend_max_bid player squad pool budget slots).hard_max →
      (recommend_max_bid player squad pool budget slots).recommended_max ≤
        (recommend_max_bid player squad pool budget slots).hard_max) := by
  simp only [recommend_max_bid]
  refine ⟨le_max_right _ _, ?_, fun h => max_le (min_le_right _ _) h⟩
  unfold hard_cap BASE_PRICE
  split_ifs with h1 <;> omega

/-- C2 witness: candidate `harish`, empty roster, budget 100 and 9 slots: the
hard cap is 60 ≥ base price, and the recommendation lies inside the interval. -/
theorem recommend_max_bid_bounds_witness :
    BASE_PRICE ≤ (recommend_max_bid harish [] [harish] 100 9).hard_max ∧
    BASE_PRICE ≤ (recommend_max_bid harish [] [harish] 100 9).recommended_max ∧
    (recommend_max_bid harish [] [harish] 100 9).hard_max ≤ 100 ∧
    (recommend_max_bid harish [] [harish] 100 9).recommended_max ≤
      (recommend_max_bid harish [] [harish] 100 9).hard_max := by
  have hh : BASE_PRICE ≤ (recommend_max_bid harish [] [harish] 100 9).hard_max := by
    norm_num [recommend_max_bid, hard_cap, BASE_PRICE]
  obtain ⟨h1, h2, h3⟩ := recommend_max_bid_bounds harish [] [harish] 100 9
  exact ⟨hh, h1, h2, h3 hh⟩

/-- C2 counterexample: with remaining budget 0 and one slot the hard cap is 0,
but the recommended bid is clamped up to the base price 5 — outside
`[base_price, hard_max]`, refuting the unconditional interval claim. -/
theorem recommend_max_bid_outside_cap :
    (recommend_max_bid nitin [] [nitin] 0 1).recommended_max = 5 ∧
    (recommend_max_bid nitin [] [nitin] 0 1).hard_max = 0 ∧
    ¬ ((recommend_max_bid nitin [] [nitin] 0 1).recommended_max ≤
        (recommend_max_bid nitin [] [nitin] 0 1).hard_max) := by
  norm_num [recommend_max_bid, hard_cap, marginal_value, baseline_ovr, boosted_ovr,
    baseline_squad, boosted_squad, others, solve_optimal_squad, need_premium, tier_premium,
    roleNeeds, roleCount, classify_role, classify_tier, compute_overall, round1, roundHalfEven,
    bowlers_needed, bowlCount, canBowl, BASE_PRICE, nitin]

/-- C1 (code bug): with one slot left, the forced-in sub-solve requests 0
players and returns `[]`, and `boosted_ovr` then evaluates to 0 instead of the
candidate's own overall quality (5.6 for `kohli`): Python's
conditional-expression precedence puts `player["overall"] +` inside the
if-branch, so the claimed identity `boosted = own quality + optimizer total`
fails whenever the sub-solve yields no players. -/
theorem boosted_ovr_violates_claim :
    boosted_squad kohli [] [kohli] 100 1 = [] ∧
    boosted_ovr kohli [] [kohli] 100 1 = 0 ∧
    compute_overall kohli = 5.6 ∧
    boosted_ovr kohli [] [kohli] 100 1 ≠
      compute_overall kohli + totalOverall (boosted_squad kohli [] [kohli] 100 1) := by
  norm_num [boosted_ovr, boosted_squad, others, solve_optimal_squad, totalOverall,
    compute_overall, round1, roundHalfEven, kohli, BASE_PRICE]

/-! ## Competitive bid estimator (`estimate_competition`) -/

/-- A competitor team's snapshot in `all_teams_data`: squad, remaining budget,
remaining slots. -/
structure TeamInfo where
  squad : List Player
  budget_left : ℤ
  slots_left : ℤ
deriving DecidableEq

/-- One entry of `estimate_competition`'s result (the `reasons` strings are
display-only and omitted). -/
structure CompetitorEstimate where
  team : String
  desire_score : ℚ
  estimated_max_bid : ℤ
  budget_left : ℤ
  slots_left : ℤ
deriving DecidableEq

/-- The additive part of a competitor's desire score, before budget scaling:
role-need +3, bowling-need +2.5 (when the candidate can bowl), tier-1
attraction +3 / tier-2 attraction +1.5, role scarcity in the pool +2. -/
def desire_base (player : Player) (ti : TeamInfo) (pool : List Player) : ℚ :=
  (if roleNeeds ti.squad (classify_role player) then 3.0 else 0) +
  (if 0 < bowlers_needed ti.squad ∧ canBowl player then 2.5 else 0) +
  (if classify_tier player = 1 then 3.0
   else if classify_tier player = 2 then 1.5 else 0) +
  (if (pool.countP (fun p =>
        decide (classify_role p = classify_role player ∧ p.id ≠ player.id)) : ℤ) ≤
      ti.slots_left
   then 2.0 else 0)

/-- A competitor's desire score: the additive part scaled by
`0.5 + budget_left / BUDGET_PER_TEAM`. -/
def desireScore (player : Player) (ti : TeamInfo) (pool : List Player) : ℚ :=
  desire_base player ti pool * (0.5 + (ti.budget_left : ℚ) / (BUDGET_PER_TEAM : ℚ))

/-- One loop iteration of `estimate_competition`: skip our own team and teams
with no slots or insufficient budget, estimate the clamped max bid, and keep
the competitor only when its desire is strictly positive. -/
def competitor_entry (player : Player) (nm : String) (ti : TeamInfo) (pool : List Player) :
    Option CompetitorEstimate :=
  if nm = "Abhijeet" then none
  else if ti.slots_left ≤ 0 ∨ ti.budget_left < BASE_PRICE then none
  else if 0 < desireScore player ti pool then
    some { team := nm
           desire_score := round1 (desireScore player ti pool)
           estimated_max_bid :=
             max (min (pyInt ((BASE_PRICE : ℚ) + desireScore player ti pool * 2.5))
               (hard_cap ti.budget_left ti.slots_left)) BASE_PRICE
           budget_left := ti.budget_left
           slots_left := ti.slots_left }
  else none

/-- Stable insertion of a competitor into a list sorted by strictly decreasing
desire score (Python's stable `sort(key=lambda x: -x["desire_score"])`). -/
def insertByDesire (x : CompetitorEstimate) : List CompetitorEstimate → List CompetitorEstimate
  | [] => [x]
  | y :: ys => if y.desire_score < x.desire_score then x :: y :: ys else y :: insertByDesire x ys

/-- Stable sort of competitors by descending desire score. -/
def sortByDesire : List CompetitorEstimate → List CompetitorEstimate
  | [] => []
  | x :: xs => insertByDesire x (sortByDesire xs)

/-- `optimizer.py` `estimate_competition`: per-competitor desire scoring and
max-bid estimation, sorted by descending desire. -/
def estimate_competition (player : Player) (teams : List (String × TeamInfo))
    (pool : List Player) : List CompetitorEstimate :=
  sortByDesire (teams.filterMap (fun t => competitor_entry player t.1 t.2 pool))

/-! ## Auction price predictor (`predict_auction_price`) -/

inductive CompetitionLevel where
  | low
  | moderate
  | fierce
deriving DecidableEq

structure PricePrediction where
  predicted_price : ℤ
  competition_level : CompetitionLevel
  competing_teams : List CompetitorEstimate
  price_range : ℤ × ℤ
deriving DecidableEq

/-- Descending insertion for integer bid lists (`sorted(bids, reverse=True)`). -/
def insertIntDesc (x : ℤ) : List ℤ → List ℤ
  | [] => [x]
  | y :: ys => if y < x then x :: y :: ys else y :: insertIntDesc x ys

/-- Descending sort of integer bid lists. -/
def sortIntDesc : List ℤ → List ℤ
  | [] => []
  | x :: xs => insertIntDesc x (sortIntDesc xs)

/-- Python `max(...)` over a non-empty integer list (0 on the unreachable
empty case). -/
def listMaxInt : List ℤ → ℤ
  | [] => 0
  | x :: xs => xs.foldl max x

/-- `tier_mult = {1: 1.4, 2: 1.2, 3: 1.0, 4: 0.9}.get(player["tier"], 1.0)`. -/
def tier_mult (player : Player) : ℚ :=
  match classify_tier player with
  | 1 => 1.4
  | 2 => 1.2
  | 3 => 1.0
  | 4 => 0.9
  | _ => 1.0

/-- `optimizer.py` `predict_auction_price`: second-highest-bid clearing price
plus one increment (capped at the highest bid), tier multiplier, competition
level, and the 70%/150% price range capped at the highest estimated bid. -/
def predict_auction_price (player : Player) (teams : List (String × TeamInfo))
    (pool : List Player) : PricePrediction :=
  match estimate_competition player teams pool with
  | [] =>
    { predicted_price := BASE_PRICE
      competition_level := CompetitionLevel.low
      competing_teams := []
      price_range := (BASE_PRICE, BASE_PRICE) }
  | c0 :: rest =>
    let bids := sortIntDesc ((c0 :: rest).map (fun c => c.estimated_max_bid))
    let predicted0 : ℤ :=
      match bids with
      | b0 :: b1 :: _ => min b0 (b1 + BID_INCREMENT)
      | [b0] => b0
      | [] => 0
    let predicted : ℤ := max (pyInt ((predicted0 : ℚ) * tier_mult player)) BASE_PRICE
    let num_competing := (c0 :: rest).countP (fun c => decide ((2 : ℚ) < c.desire_score))
    { predicted_price := predicted
      competition_level :=
        if 3 ≤ num_competing ∨ (8 : ℚ) < c0.desire_score then CompetitionLevel.fierce
        else if 2 ≤ num_competing ∨ (5 : ℚ) < c0.desire_score then CompetitionLevel.moderate
        else CompetitionLevel.low
      competing_teams := (c0 :: rest).take 3
      price_range :=
        (max BASE_PRICE (pyInt ((predicted : ℚ) * 0.7)),
         min (pyInt ((predicted : ℚ) * 1.5))
           (listMaxInt ((c0 :: rest).map (fun c => c.estimated_max_bid)))) }

/-- The highest estimated competitor max bid (0 when there are none). -/
def maxEstBid (player : Player) (teams : List (String × TeamInfo)) (pool : List Player) : ℤ :=
  listMaxInt ((estimate_competition player teams pool).map (fun c => c.estimated_max_bid))

/-! ## Lemmas about the desire sort and `pyInt` -/

theorem mem_insertByDesire {x a : CompetitorEstimate} {l : List CompetitorEstimate} :
    a ∈ insertByDesire x l ↔ a = x ∨ a ∈ l := by
  induction l with
  | nil => simp [insertByDesire]
  | cons y ys ih =>
    simp only [insertByDesire]
    split
    · simp [List.mem_cons]
    · simp only [List.mem_cons, ih]
      tauto

theorem mem_sortByDesire {a : CompetitorEstimate} {l : List CompetitorEstimate} :
    a ∈ sortByDesire l ↔ a ∈ l := by
  induction l with
  | nil => simp [sortByDesire]
  | cons x xs ih => simp [sortByDesire, mem_insertByDesire, ih]

theorem insertByDesire_ne_nil (x : CompetitorEstimate) (l : List CompetitorEstimate) :
    insertByDesire x l ≠ [] := by
  cases l with
  | nil => simp [insertByDesire]
  | cons y ys =>
    simp only [insertByDesire]
    split <;> simp

theorem sortByDesire_eq_nil {l : List CompetitorEstimate} :
    sortByDesire l = [] ↔ l = [] := by
  cases l with
  | nil => simp [sortByDesire]
  | cons x xs => simp [sortByDesire, insertByDesire_ne_nil]

theorem pyInt_scale_le {n : ℤ} {c : ℚ} (hn : 0 ≤ n) (hc0 : 0 ≤ c) (hc1 : c ≤ 1) :
    pyInt ((n : ℚ) * c) ≤ n := by
  have hn' : (0 : ℚ) ≤ (n : ℚ) := by exact_mod_cast hn
  have hq : 0 ≤ (n : ℚ) * c := mul_nonneg hn' hc0
  rw [pyInt, if_pos hq]
  have hle : (n : ℚ) * c ≤ (n : ℚ) := by nlinarith
  calc ⌊(n : ℚ) * c⌋ ≤ ⌊(n : ℚ)⌋ := Int.floor_le_floor hle
    _ = n := Int.floor_intCast n

theorem le_pyInt_scale {n : ℤ} {c : ℚ} (hn : 0 ≤ n) (hc : 1 ≤ c) :
    n ≤ pyInt ((n : ℚ) * c) := by
  have hn' : (0 : ℚ) ≤ (n : ℚ) := by exact_mod_cast hn
  have hq : 0 ≤ (n : ℚ) * c := mul_nonneg hn' (by linarith)
  rw [pyInt, if_pos hq]
  apply Int.le_floor.mpr
  nlinarith

/-- Bounds of `predict_auction_price`'s price range around a predicted price
`P` that is at least the base price, with `M` the highest estimated bid. -/
theorem price_range_ok (P M : ℤ) (h5 : BASE_PRICE ≤ P) :
    max BASE_PRICE (pyInt ((P : ℚ) * 0.7)) ≤ P ∧
    (P ≤ M → P ≤ min (pyInt ((P : ℚ) * 1.5)) M) := by
  have hP0 : (0 : ℤ) ≤ P := le_trans (by norm_num [BASE_PRICE]) h5
  constructor
  · exact max_le h5 (pyInt_scale_le hP0 (by norm_num) (by norm_num))
  · intro hM
    exact le_min (le_pyInt_scale hP0 (by norm_num)) hM

/-- The shape of `predict_auction_price`'s clamped prediction `max x base` and
its price range, for any pre-clamp value `x` and highest estimated bid `M`. -/
theorem predict_range_shape (x M : ℤ) :
    BASE_PRICE ≤ max x BASE_PRICE ∧
    max BASE_PRICE (pyInt (((max x BASE_PRICE : ℤ) : ℚ) * 0.7)) ≤ max x BASE_PRICE ∧
    (max x BASE_PRICE ≤ M →
      max x BASE_PRICE ≤ min (pyInt (((max x BASE_PRICE : ℤ) : ℚ) * 1.5)) M) := by
  have h := price_range_ok (max x BASE_PRICE) M (le_max_right _ _)
  exact ⟨le_max_right _ _, h.1, h.2⟩

/-! ## Desire-score lower bounds -/

theorem desire_base_lb (player : Player) (ti : TeamInfo) (pool : List Player) :
    desire_base player ti pool = 0 ∨ 1/2 ≤ desire_base player ti pool := by
  unfold desire_base
  split_ifs <;> norm_num

theorem desireScore_pos_round {player : Player} {ti : TeamInfo} {pool : List Player}
    (hb : BASE_PRICE ≤ ti.budget_left) (hd : 0 < desireScore player ti pool) :
    0 < round1 (desireScore player ti pool) := by
  apply round1_pos
  have h5 : (5 : ℚ) ≤ (ti.budget_left : ℚ) := by
    have h5' : (5 : ℤ) ≤ ti.budget_left := hb
    exact_mod_cast h5'
  have hscale : (11/20 : ℚ) ≤ 0.5 + (ti.budget_left : ℚ) / (BUDGET_PER_TEAM : ℚ) := by
    have : (BUDGET_PER_TEAM : ℚ) = 100 := by norm_num [BUDGET_PER_TEAM]
    rw [this]
    linarith
  unfold desireScore at hd ⊢
  rcases desire_base_lb player ti pool with h0 | hlb
  · rw [h0, zero_mul] at hd
    exact absurd hd (lt_irrefl 0)
  · calc (1/4 : ℚ) ≤ (1/2) * (11/20) := by norm_num
      _ ≤ desire_base player ti pool *
          (0.5 + (ti.budget_left : ℚ) / (BUDGET_PER_TEAM : ℚ)) :=
        mul_le_mul hlb hscale (by norm_num) (le_trans (by norm_num) hlb)

/-! ## Claim theorems: competitive bid estimator and price predictor -/

/-- C10: every competitor reported by `estimate_competition` has a strictly
positive desire score; when every eligible competitor scores 0 desire the list
is empty, and `predict_auction_price` then takes its no-competitors branch:
base price, low competition label, range (base, base). -/
theorem estimate_competition_positive (player : Player) (teams : List (String × TeamInfo))
    (pool : List Player) :
    (∀ e ∈ estimate_competition player teams pool, 0 < e.desire_score) ∧
    ((∀ t ∈ teams, t.1 ≠ "Abhijeet" → 0 < t.2.slots_left → BASE_PRICE ≤ t.2.budget_left →
        desireScore player t.2 pool = 0) →
      estimate_competition player teams pool = []) ∧
    (estimate_competition player teams pool = [] →
      predict_auction_price player teams pool =
        { predicted_price := BASE_PRICE
          competition_level := CompetitionLevel.low
          competing_teams := []
          price_range := (BASE_PRICE, BASE_PRICE) }) := by
  refine ⟨?_, ?_, ?_⟩
  · intro e he
    unfold estimate_competition at he
    obtain ⟨t, _, hentry⟩ := List.mem_filterMap.mp (mem_sortByDesire.mp he)
    unfold competitor_entry at hentry
    split_ifs at hentry with h1 h2 h3
    all_goals cases hentry
    simp only [not_or, not_le, not_lt] at h2
    exact desireScore_pos_round h2.2 h3
  · intro hall
    have hnil : teams.filterMap (fun t => competitor_entry player t.1 t.2 pool) = [] := by
      rw [List.filterMap_eq_nil_iff]
      intro t ht
      unfold competitor_entry
      split_ifs with h1 h2 h3
      · rfl
      · rfl
      · exfalso
        simp only [not_or, not_le, not_lt] at h2
        rw [hall t ht h1 h2.1 h2.2] at h3
        exact lt_irrefl 0 h3
      · rfl
    unfold estimate_competition
    rw [hnil]
    rfl
  · intro h
    unfold predict_auction_price
    rw [h]

/-- C6 (amended): for every competitor that is not skipped and has positive
desire, the reported estimated max bid is `base price + 2.5 × desire`
truncated to an integer, then clamped between that competitor's hard
affordability cap and the base price. -/
theorem estimate_competition_bid_formula (player : Player)
    (teams : List (String × TeamInfo)) (pool : List Player) (nm : String) (ti : TeamInfo)
    (hmem : (nm, ti) ∈ teams) (hnm : nm ≠ "Abhijeet") (hslots : 0 < ti.slots_left)
    (hbudget : BASE_PRICE ≤ ti.budget_left) (hdes : 0 < desireScore player ti pool) :
    ∃ e ∈ estimate_competition player teams pool,
      e.team = nm ∧
      e.estimated_max_bid =
        max (min (pyInt ((BASE_PRICE : ℚ) + desireScore player ti pool * 2.5))
          (hard_cap ti.budget_left ti.slots_left)) BASE_PRICE := by
  have hentry : competitor_entry player nm ti pool = some
      { team := nm
        desire_score := round1 (desireScore player ti pool)
        estimated_max_bid :=
          max (min (pyInt ((BASE_PRICE : ℚ) + desireScore player ti pool * 2.5))
            (hard_cap ti.budget_left ti.slots_left)) BASE_PRICE
        budget_left := ti.budget_left
        slots_left := ti.slots_left } := by
    unfold competitor_entry
    rw [if_neg hnm, if_neg (by simp only [not_or, not_le, not_lt]; exact ⟨hslots, hbudget⟩),
      if_pos hdes]
  exact ⟨_, mem_sortByDesire.mpr (List.mem_filterMap.mpr ⟨(nm, ti), hmem, hentry⟩), rfl, rfl⟩

/-- C5 (amended): the predicted price is always at least the base price and at
least the range's lower bound; it is within the range's upper bound whenever it
does not exceed the highest estimated competitor bid (the tier multiplier can
push it above that bid, in which case the upper bound — capped at the highest
estimated bid — falls below the predicted price). -/
theorem predict_auction_price_range (player : Player) (teams : List (String × TeamInfo))
    (pool : List Player) :
    BASE_PRICE ≤ (predict_auction_price player teams pool).predicted_price ∧
    (predict_auction_price player teams pool).price_range.1 ≤
      (predict_auction_price player teams pool).predicted_price ∧
    ((predict_auction_price player teams pool).predicted_price ≤ maxEstBid player teams pool →
      (predict_auction_price player teams pool).predicted_price ≤
        (predict_auction_price player teams pool).price_range.2) := by
  unfold predict_auction_price maxEstBid
  cases hc : estimate_competition player teams pool with
  | nil => exact ⟨le_refl _, le_refl _, fun h => le_refl _⟩
  | cons c0 rest =>
    simp only
    exact predict_range_shape _ _

/-! ## Concrete competition scenarios -/

/-- Pool player `Abhay` (id 28) of the real catalog: batting 9, bowling 9,
fielding 9 (overall 9.0, tier 1, all-rounder). -/
def abhay : Player := { id := 28, name := "Abhay", batting := 9, bowling := 9, fielding := 9 }

/-- Pool player `Runit` (id 25): batting 4, bowling 4, fielding 4 (overall 4.0,
tier 3). -/
def runit : Player := { id := 25, name := "Runit", batting := 4, bowling := 4, fielding := 4 }

/-- Pool player `Abhi Agarwal` (id 31): batting 4, bowling 0, fielding 0
(overall 1.6, tier 4, batsman, cannot bowl). -/
def abhiAgarwal : Player :=
  { id := 31, name := "Abhi Agarwal", batting := 4, bowling := 0, fielding := 0 }

/-- Captain `Vishal` (id 39) of the real catalog: tier 1 by tag, forced role
Batsman, cannot bowl (bowling 0). -/
def vishalCaptain : Player :=
  { id := 39, name := "Vishal", batting := 8, bowling := 0, fielding := 7,
    tag := some Tag.Captain, forced_role := some Role.Batsman }

/-- A generic batsman filler with a chosen id (batting 5, bowling 0). -/
def batsman (n : ℕ) : Player := { id := n, name := "Bat", batting := 5, bowling := 0, fielding := 5 }

def threeBatsmen : List Player := [batsman 101, batsman 102, batsman 103]

/-- C5 counterexample competitor: `Saurav` with empty squad, budget 20, one
slot. -/
def c5_teams : List (String × TeamInfo) :=
  [("Saurav", { squad := [], budget_left := 20, slots_left := 1 })]

/-- C5 witness competitor: `Saurav` with empty squad, budget 100, nine slots. -/
def c5w_teams : List (String × TeamInfo) :=
  [("Saurav", { squad := [], budget_left := 100, slots_left := 9 })]

/-- C6 competitor snapshot whose desire for `vishalCaptain` comes only from
tier-1 attraction: three batsmen owned (no Batsman need), budget 50, one slot. -/
def c6w_team : TeamInfo := { squad := threeBatsmen, budget_left := 50, slots_left := 1 }

def c6w_teams : List (String × TeamInfo) := [("Saurav", c6w_team)]

/-- C6 pool: the candidate plus two further batsmen, so the candidate's role is
not scarce for a one-slot competitor. -/
def c6w_pool : List Player := [vishalCaptain, batsman 104, batsman 105]

/-- C6 counterexample competitor: `Vishal` with empty squad, budget 100, nine
slots. -/
def c6x_team : TeamInfo := { squad := [], budget_left := 100, slots_left := 9 }

def c6x_teams : List (String × TeamInfo) := [("Vishal", c6x_team)]

/-- The competitor entry produced in the `c6w` scenario: desire 3.0, estimated
max bid 12. -/
def c10_entry : CompetitorEstimate :=
  { team := "Saurav", desire_score := 3, estimated_max_bid := 12, budget_left := 50,
    slots_left := 1 }

/-- C10 zero-desire competitor: three batsmen owned, budget 50, two slots. -/
def c10_team : TeamInfo := { squad := threeBatsmen, budget_left := 50, slots_left := 2 }

def c10_teams : List (String × TeamInfo) := [("Saurav", c10_team)]

/-- C10 pool: the tier-4 candidate plus three further batsmen, so no scarcity
bonus for a two-slot competitor. -/
def c10_pool : List Player := [abhiAgarwal, batsman 104, batsman 105, batsman 106]

set_option maxHeartbeats 1600000

/-- C5 counterexample: tier-1 candidate `abhay` against a single budget-20
one-slot competitor: the competitor's capped bid is 20, the tier multiplier
lifts the predicted price to 28, and the range's upper bound stays at 20 —
strictly below the predicted price, refuting `predicted ≤ upper`. -/
theorem predict_price_above_upper :
    (predict_auction_price abhay c5_teams [abhay]).predicted_price = 28 ∧
    (predict_auction_price abhay c5_teams [abhay]).price_range.2 = 20 ∧
    ¬ ((predict_auction_price abhay c5_teams [abhay]).predicted_price ≤
        (predict_auction_price abhay c5_teams [abhay]).price_range.2) := by
  have hest : estimate_competition abhay c5_teams [abhay] =
      [{ team := "Saurav", desire_score := 7.4, estimated_max_bid := 20, budget_left := 20,
         slots_left := 1 }] := by
    norm_num [estimate_competition, List.filterMap_cons, List.filterMap_nil, competitor_entry,
      desireScore, desire_base, roleNeeds, roleCount, classify_role, classify_tier,
      compute_overall, round1, roundHalfEven, pyInt, hard_cap, bowlers_needed, bowlCount,
      canBowl, sortByDesire, insertByDesire, BASE_PRICE, BUDGET_PER_TEAM, abhay, c5_teams]
  simp only [predict_auction_price, hest]
  norm_num [sortIntDesc, insertIntDesc, listMaxInt, tier_mult, classify_tier, compute_overall,
    round1, roundHalfEven, pyInt, BASE_PRICE, BID_INCREMENT, abhay]

/-- C5 witness: tier-3 candidate `runit` against one rich competitor: the
predicted price (33) equals the highest estimated bid, so the conditional
upper-bound conclusion applies and all three range facts hold. -/
theorem predict_auction_price_range_witness :
    (predict_auction_price runit c5w_teams [runit]).predicted_price ≤
      maxEstBid runit c5w_teams [runit] ∧
    BASE_PRICE ≤ (predict_auction_price runit c5w_teams [runit]).predicted_price ∧
    (predict_auction_price runit c5w_teams [runit]).price_range.1 ≤
      (predict_auction_price runit c5w_teams [runit]).predicted_price ∧
    (predict_auction_price runit c5w_teams [runit]).predicted_price ≤
      (predict_auction_price runit c5w_teams [runit]).price_range.2 := by
  have hest : estimate_competition runit c5w_teams [runit] =
      [{ team := "Saurav", desire_score := 11.2, estimated_max_bid := 33, budget_left := 100,
         slots_left := 9 }] := by
    norm_num [estimate_competition, List.filterMap_cons, List.filterMap_nil, competitor_entry,
      desireScore, desire_base, roleNeeds, roleCount, classify_role, classify_tier,
      compute_overall, round1, roundHalfEven, pyInt, hard_cap, bowlers_needed, bowlCount,
      canBowl, sortByDesire, insertByDesire, BASE_PRICE, BUDGET_PER_TEAM, runit, c5w_teams]
  have hm : (predict_auction_price runit c5w_teams [runit]).predicted_price ≤
      maxEstBid runit c5w_teams [runit] := by
    simp only [predict_auction_price, maxEstBid, hest]
    norm_num [sortIntDesc, insertIntDesc, listMaxInt, tier_mult, classify_tier,
      compute_overall, round1, roundHalfEven, pyInt, BASE_PRICE, BID_INCREMENT, runit]
  obtain ⟨h1, h2, h3⟩ := predict_auction_price_range runit c5w_teams [runit]
  exact ⟨hm, h1, h2, h3 hm⟩

/-- C6 witness: the spec's exact-value scenario — a competitor whose desire for
`vishalCaptain` comes only from tier-1 attraction (+3), scaled by budget ratio
1.0; the reported bid equals the truncated-and-clamped formula. -/
theorem estimate_competition_bid_formula_witness :
    ("Saurav", c6w_team) ∈ c6w_teams ∧
    (0 : ℚ) < desireScore vishalCaptain c6w_team c6w_pool ∧
    ∃ e ∈ estimate_competition vishalCaptain c6w_teams c6w_pool,
      e.team = "Saurav" ∧
      e.estimated_max_bid =
        max (min (pyInt ((BASE_PRICE : ℚ) + desireScore vishalCaptain c6w_team c6w_pool * 2.5))
          (hard_cap c6w_team.budget_left c6w_team.slots_left)) BASE_PRICE := by
  have hdes : (0 : ℚ) < desireScore vishalCaptain c6w_team c6w_pool := by
    norm_num [desireScore, desire_base, roleNeeds, roleCount, classify_role, classify_tier,
      bowlers_needed, bowlCount, canBowl, BUDGET_PER_TEAM, vishalCaptain, threeBatsmen,
      batsman, c6w_team, c6w_pool]
  refine ⟨List.mem_singleton.mpr rfl, hdes, ?_⟩
  exact estimate_competition_bid_formula vishalCaptain c6w_teams c6w_pool "Saurav" c6w_team
    (List.mem_singleton.mpr rfl) (by decide) (by decide) (by decide) hdes

/-- C6 counterexample: for `abhay` against a rich competitor the desire is
15.75, so `base + 2.5 × desire = 44.375`; the code reports the truncated 44,
which differs from the claimed un-truncated clamp value 44.375. -/
theorem estimated_bid_not_exact_clamp :
    (estimate_competition abhay c6x_teams [abhay]).map
      (fun e => e.estimated_max_bid) = [44] ∧
    desireScore abhay c6x_team [abhay] = 15.75 ∧
    max (BASE_PRICE : ℚ)
      (min ((BASE_PRICE : ℚ) + desireScore abhay c6x_team [abhay] * 2.5)
        ((hard_cap c6x_team.budget_left c6x_team.slots_left : ℤ) : ℚ)) = 44.375 ∧
    ((44 : ℤ) : ℚ) ≠ 44.375 := by
  have hdes : desireScore abhay c6x_team [abhay] = 15.75 := by
    norm_num [desireScore, desire_base, roleNeeds, roleCount, classify_role, classify_tier,
      compute_overall, round1, roundHalfEven, bowlers_needed, bowlCount, canBowl,
      BUDGET_PER_TEAM, abhay, c6x_team]
  have hest : estimate_competition abhay c6x_teams [abhay] =
      [{ team := "Vishal", desire_score := 15.8, estimated_max_bid := 44, budget_left := 100,
         slots_left := 9 }] := by
    norm_num [estimate_competition, List.filterMap_cons, List.filterMap_nil, competitor_entry,
      desireScore, desire_base, roleNeeds, roleCount, classify_role, classify_tier,
      compute_overall, round1, roundHalfEven, pyInt, hard_cap, bowlers_needed, bowlCount,
      canBowl, sortByDesire, insertByDesire, BASE_PRICE, BUDGET_PER_TEAM, abhay, c6x_teams,
      c6x_team]
  rw [hest, hdes]
  norm_num [hard_cap, BASE_PRICE, c6x_team]

/-- C10 witness: a positive-desire competitor is reported with its (rounded)
desire score still strictly positive, and a candidate desired by no eligible
competitor yields the empty competitor list and the base-price low-competition
prediction. -/
theorem estimate_competition_positive_witness :
    c10_entry ∈ estimate_competition vishalCaptain c6w_teams c6w_pool ∧
    (0 : ℚ) < c10_entry.desire_score ∧
    estimate_competition abhiAgarwal c10_teams c10_pool = [] ∧
    predict_auction_price abhiAgarwal c10_teams c10_pool =
      { predicted_price := BASE_PRICE
        competition_level := CompetitionLevel.low
        competing_teams := []
        price_range := (BASE_PRICE, BASE_PRICE) } := by
  have hmem : c10_entry ∈ estimate_competition vishalCaptain c6w_teams c6w_pool := by
    have hest : estimate_competition vishalCaptain c6w_teams c6w_pool = [c10_entry] := by
      norm_num [estimate_competition, List.filterMap_cons, List.filterMap_nil,
        competitor_entry, desireScore, desire_base, roleNeeds, roleCount, classify_role,
        classify_tier, compute_overall, round1, roundHalfEven, pyInt, hard_cap,
        bowlers_needed, bowlCount, canBowl, sortByDesire, insertByDesire, BASE_PRICE,
        BUDGET_PER_TEAM, vishalCaptain, threeBatsmen, batsman, c6w_team, c6w_teams, c6w_pool,
        c10_entry]
    rw [hest]
    exact List.mem_singleton.mpr rfl
  have hz : ∀ t ∈ c10_teams, t.1 ≠ "Abhijeet" → 0 < t.2.slots_left →
      BASE_PRICE ≤ t.2.budget_left → desireScore abhiAgarwal t.2 c10_pool = 0 := by
    intro t ht
    rw [c10_teams, List.mem_singleton] at ht
    subst ht
    intro _ _ _
    norm_num [desireScore, desire_base, roleNeeds, roleCount, classify_role, classify_tier,
      compute_overall, round1, roundHalfEven, bowlers_needed, bowlCount, canBowl,
      BUDGET_PER_TEAM, abhiAgarwal, threeBatsmen, batsman, c10_team, c10_pool]
  have hnil := (estimate_competition_positive abhiAgarwal c10_teams c10_pool).2.1 hz
  exact ⟨hmem, (estimate_competition_positive vishalCaptain c6w_teams c6w_pool).1 c10_entry hmem,
    hnil, (estimate_competition_positive abhiAgarwal c10_teams c10_pool).2.2 hnil⟩

end CricBazaar
